import Mathlib

/-!
# Verification of the slides-master generation pipeline

Shallow embedding of the pipeline core of the `slides-master` plugin:
the markdown chunker (`MarkdownParserService.ts`), the retrieval index
(`RAGService.ts`), the summarizer (`SummaryService.ts`), the planner
(`PlanService` in `RAGService.ts`), the image synthesizer
(`ImageService.ts`) and the orchestrator (`executePipeline` in the
plugin main file), together with theorems settling the specification
claims about them.

Modelling conventions:
* JavaScript numbers are modelled as `ℚ` (exact rationals); `Math.floor`,
  `Math.ceil`, `Math.round` become `Int.floor`/`Int.ceil`/`⌊q + 1/2⌋`.
  `Math.log` is an external transcendental primitive and is threaded
  through as an arbitrary function parameter `log : ℚ → ℚ`; no claim
  depends on its values.  Division by zero is `0` in `ℚ` where
  JavaScript would produce `NaN`; no settled claim depends on that case.
* Strings are Lean `String`s; `split('\n')`/`join('\n')` are modelled at
  the character level by `splitNL`/`joinNL`.
* `async` functions are pure functions over explicit oracles for their
  network-bound calls; a JavaScript exception becomes an `Option`/sum
  branch at the exact program point where the source can throw.
-/

namespace SlidesMaster

/-! ## JavaScript string primitives -/

/-- `content.split('\n')` at the character level.  Always returns at least
one group; `"".split('\n') = [""]`. -/
def splitNLCh : List Char → List (List Char)
  | [] => [[]]
  | c :: cs =>
    if c = '\n' then [] :: splitNLCh cs
    else
      match splitNLCh cs with
      | [] => [[c]]
      | g :: gs => (c :: g) :: gs

/-- `content.split('\n')` on strings. -/
def splitNL (s : String) : List String :=
  (splitNLCh s.data).map (fun cs => String.mk cs)

/-- `lines.join('\n')` at the character level. -/
def joinCh : List (List Char) → List Char
  | [] => []
  | [x] => x
  | x :: y :: rest => x ++ '\n' :: joinCh (y :: rest)

/-- `lines.join('\n')` on strings. -/
def joinNL (ls : List String) : String :=
  String.mk (joinCh (ls.map String.data))

/-- The ECMAScript whitespace set (WhiteSpace ∪ LineTerminator), the
characters removed by `trim()` and matched by `\s`: tab, LF, VT, FF,
CR, space, NBSP, the Ogham space mark, the U+2000–U+200A spaces, LS,
PS, NNBSP, MMSP, the ideographic space and the BOM. -/
def jsWhitespace (c : Char) : Bool :=
  c = '\t' || c = '\n' || c.toNat = 0xB || c.toNat = 0xC || c = '\r' || c = ' ' ||
  c.toNat = 0xA0 || c.toNat = 0x1680 ||
  (0x2000 ≤ c.toNat && c.toNat ≤ 0x200A) ||
  c.toNat = 0x2028 || c.toNat = 0x2029 || c.toNat = 0x202F ||
  c.toNat = 0x205F || c.toNat = 0x3000 || c.toNat = 0xFEFF

/-- `!s.trim()`: the string trims to the empty string, i.e. every
character is JavaScript whitespace. -/
def trimEmpty (s : String) : Bool :=
  s.data.all jsWhitespace

/-! ## Chunk metadata extraction (`MarkdownParserService.ts`) -/

/-- One line matched against the header regex `^(#{1,6})\s+(.+)$`:
1–6 leading `#`, at least one whitespace character, at least one further
character; the captured group 2 is trimmed.  (When the rest of the line
is all whitespace the greedy `\s+` backtracks one character so the
capture trims to `""`.) -/
def headerOfCh (cs : List Char) : Option (List Char) :=
  let hashes := cs.takeWhile (fun c => c = '#')
  let rest := cs.dropWhile (fun c => c = '#')
  if decide (1 ≤ hashes.length) && decide (hashes.length ≤ 6) &&
      (match rest.head? with | some c => jsWhitespace c | none => false) &&
      decide (2 ≤ rest.length) then
    let t := rest.dropWhile jsWhitespace
    some ((t.reverse.dropWhile jsWhitespace).reverse)
  else
    none

/-- `extractHeaders`: every line matching the header regex, group 2
trimmed. -/
def extractHeaders (content : String) : List String :=
  (splitNLCh content.data).filterMap (fun cs => (headerOfCh cs).map String.mk)

/-- Number of non-overlapping (leftmost-first) occurrences of three
consecutive backticks. -/
def tickScan : List Char → Nat
  | '`' :: '`' :: '`' :: rest => tickScan rest + 1
  | _ :: rest => tickScan rest
  | [] => 0

/-- `containsCodeBlock`: `/```[\s\S]*?```/.test(content)`, i.e. the text
holds at least two non-overlapping occurrences of three backticks. -/
def containsCodeBlock (content : String) : Bool :=
  2 ≤ tickScan content.data

/-- `containsTable`: `/^\|(.+)\|$/m.test(content)` — some line starts and
ends with a pipe with at least one character in between. -/
def lineIsTableRow (cs : List Char) : Bool :=
  match cs with
  | '|' :: rest => decide (2 ≤ rest.length) && (rest.getLast? = some '|')
  | _ => false

def containsTable (content : String) : Bool :=
  (splitNLCh content.data).any lineIsTableRow

/-- Scanner for the image regex `!\[([^\]]*)\]\(([^)]+)\)`: after `![`,
characters other than `]` up to a `]`, then `(`, then at least one
character other than `)`, then `)`. -/
def imgUrlTail : List Char → Bool → Bool
  | [], _ => false
  | ')' :: _, seen => seen
  | _ :: cs, _ => imgUrlTail cs true

def imgAltTail : List Char → Bool
  | [] => false
  | ']' :: cs =>
    match cs with
    | '(' :: cs' => imgUrlTail cs' false
    | _ => false
  | _ :: cs => imgAltTail cs

def imgScan : List Char → Bool
  | [] => false
  | '!' :: cs =>
    (match cs with
     | '[' :: cs' => imgAltTail cs'
     | _ => false) || imgScan cs
  | _ :: cs => imgScan cs

/-- `containsImage`: `/!\[([^\]]*)\]\(([^)]+)\)/.test(content)`. -/
def containsImage (content : String) : Bool :=
  imgScan content.data

/-! ## Data model: document chunks -/

structure ChunkMetadata where
  chunkIndex : Nat
  startLine : Nat
  endLine : Nat
  headers : List String
  containsCode : Bool
  containsTable : Bool
  containsImage : Bool
  deriving Repr, DecidableEq

structure DocumentChunk where
  id : String
  content : String
  metadata : ChunkMetadata
  deriving Repr, DecidableEq

/-! ## Chunker (`MarkdownParser.parse`) -/

namespace MarkdownParser

/-- The chunk built for the window starting at line index `i`
(0-based): `lines.slice(i, min(i + chunkSize, lines.length))`. -/
def mkChunk (lines : List String) (chunkSize i chunkIndex : Nat) : DocumentChunk :=
  let chunkLines := (lines.drop i).take chunkSize
  let chunkContent := joinNL chunkLines
  { id := "chunk-" ++ toString chunkIndex
    content := chunkContent
    metadata :=
      { chunkIndex := chunkIndex
        startLine := i + 1
        endLine := min (i + chunkSize) lines.length
        headers := extractHeaders chunkContent
        containsCode := containsCodeBlock chunkContent
        containsTable := containsTable chunkContent
        containsImage := containsImage chunkContent } }

/-- `overlapLines = Math.floor(chunkSize * overlapRatio)`. -/
def overlapLines (chunkSize : Nat) (overlapRatio : ℚ) : ℤ :=
  ⌊(chunkSize : ℚ) * overlapRatio⌋

/-- The per-iteration advance of the chunking loop:
`i += chunkSize - overlapLines`. -/
def stepOf (chunkSize : Nat) (overlapRatio : ℚ) : ℤ :=
  (chunkSize : ℤ) - overlapLines chunkSize overlapRatio

/-- The body of the `for` loop in `parse`, with explicit fuel.  Each
iteration takes the window at `i`, skips it when its content trims to
empty (the chunk index is not consumed), otherwise emits the chunk.
When the step is ≥ 1 the loop runs at most `lines.length` iterations, so
fuel `lines.length` reproduces the source loop exactly; for step ≤ 0 the
source loop never terminates (see `ParseTerminates` and C1). -/
def parseGo (lines : List String) (chunkSize step : Nat) :
    Nat → Nat → Nat → List DocumentChunk
  | 0, _, _ => []
  | fuel + 1, i, chunkIndex =>
    if i < lines.length then
      if trimEmpty (joinNL ((lines.drop i).take chunkSize)) then
        parseGo lines chunkSize step fuel (i + step) chunkIndex
      else
        mkChunk lines chunkSize i chunkIndex ::
          parseGo lines chunkSize step fuel (i + step) (chunkIndex + 1)
    else []

/-- `parse` on an already split line list (the loop of
`MarkdownParser.parse` after `content.split('\n')`). -/
def parseLines (lines : List String) (chunkSize : Nat) (overlapRatio : ℚ) :
    List DocumentChunk :=
  parseGo lines chunkSize (stepOf chunkSize overlapRatio).toNat lines.length 0 0

/-- `MarkdownParser.parse(content)`. -/
def parse (content : String) (chunkSize : Nat) (overlapRatio : ℚ) :
    List DocumentChunk :=
  parseLines (splitNL content) chunkSize overlapRatio

/-- Termination condition of the source `for` loop
`for (let i = 0; i < lines.length; i += step)`: after `n` iterations the
counter is `n * step`, and the loop exits iff some iterate reaches
`lines.length`.  The source has no guard on `step`, so this is the exact
termination criterion of `parse`. -/
def ParseTerminates (content : String) (chunkSize : Nat) (overlapRatio : ℚ) : Prop :=
  ∃ n : ℕ, ((splitNL content).length : ℤ) ≤ n * stepOf chunkSize overlapRatio

end MarkdownParser

/-! ## Retrieval index (`RAGService.ts`) -/

/-- `s.toLowerCase()` (character-wise; ASCII-faithful). -/
def jsToLower (s : String) : String :=
  String.mk (s.data.map Char.toLower)

/-- `s.includes(pat)` — substring test. -/
def includesCh (pat : List Char) : List Char → Bool
  | [] => pat.isPrefixOf []
  | c :: t => pat.isPrefixOf (c :: t) || includesCh pat t

def jsIncludes (s pat : String) : Bool :=
  includesCh pat.data s.data

namespace RAGService

/-- Characters kept by the tokenizer's replacement
`[^\w\s가-힣]` → space: JS `\w` (ASCII alphanumerics and underscore)
plus the Korean syllable block U+AC00–U+D7A3. -/
def isWordChar (c : Char) : Bool :=
  c.isAlphanum || c = '_' || (0xAC00 ≤ c.toNat && c.toNat ≤ 0xD7A3)

/-- The stop-word set of `RAGService.tokenize`. -/
def stopWords : List String :=
  ["a", "an", "and", "are", "as", "at", "be", "by", "for", "from",
   "has", "he", "in", "is", "it", "its", "of", "on", "that", "the",
   "to", "was", "will", "with", "this", "but", "they", "have", "had",
   "what", "when", "where", "who", "which", "why", "how"]

/-- `tokenize`: replace every non-word character by a space, split on
whitespace runs, drop empty tokens, then drop stop words (checked on the
lowercased token).  The net effect of replace-then-split is the maximal
runs of word characters. -/
def tokenize (text : String) : List String :=
  (((text.data.splitOnP (fun c => !isWordChar c)).filter
      (fun r => !r.isEmpty)).map String.mk).filter
    (fun token => !stopWords.contains (jsToLower token))

/-- The TF-IDF accumulation loop of `calculateRelevanceScore`:
`score += (termFreq / chunkTerms.length) * log(totalChunks / (chunksWithTerm + 1))`,
starting from 0.  `log` abstracts `Math.log`. -/
def termFreqScore (allChunks : List DocumentChunk) (log : ℚ → ℚ)
    (chunkTerms queryTerms : List String) : ℚ :=
  queryTerms.foldl (fun score term =>
    let termFreq : ℚ := ((chunkTerms.filter (fun t => t == term)).length : ℚ)
    let tf : ℚ := termFreq / (chunkTerms.length : ℚ)
    let chunksWithTerm :=
      (allChunks.filter (fun c => jsIncludes (jsToLower c.content) term)).length
    let idf := log ((allChunks.length : ℚ) / ((chunksWithTerm : ℚ) + 1))
    score + tf * idf) 0

/-- `calculateRelevanceScore`: TF-IDF sum, then a ×1.5 boost for every
(header, query-term) pair where the term occurs in the lowercased
header, then ×1.1 boosts for image, table and code content, in this
order. -/
def calculateRelevanceScore (allChunks : List DocumentChunk) (log : ℚ → ℚ)
    (chunk : DocumentChunk) (queryTerms : List String) : ℚ :=
  let chunkTerms := tokenize (jsToLower chunk.content)
  let base := termFreqScore allChunks log chunkTerms queryTerms
  let afterHeaders := chunk.metadata.headers.foldl (fun score header =>
    queryTerms.foldl (fun s term =>
      if jsIncludes (jsToLower header) term then s * (3 / 2) else s) score) base
  let s1 := if chunk.metadata.containsImage then afterHeaders * (11 / 10) else afterHeaders
  let s2 := if chunk.metadata.containsTable then s1 * (11 / 10) else s1
  if chunk.metadata.containsCode then s2 * (11 / 10) else s2

/-- One element of the intermediate `scoredChunks` array. -/
structure ScoredChunk where
  chunk : DocumentChunk
  score : ℚ
  deriving Repr

/-- `this.chunks.map((chunk) => ({ chunk, score }))`. -/
def scoredChunks (allChunks : List DocumentChunk) (log : ℚ → ℚ)
    (queryTerms : List String) : List ScoredChunk :=
  allChunks.map (fun c => ⟨c, calculateRelevanceScore allChunks log c queryTerms⟩)

/-- Stable descending insertion: the inserted element `x` (earlier in the
original order) goes before the first later element whose score does not
exceed it — the order produced by the stable JavaScript
`sort((a, b) => b.score - a.score)`. -/
def insertDesc (x : ScoredChunk) : List ScoredChunk → List ScoredChunk
  | [] => [x]
  | y :: ys => if y.score ≤ x.score then x :: y :: ys else y :: insertDesc x ys

/-- Stable sort by score descending. -/
def sortDesc : List ScoredChunk → List ScoredChunk
  | [] => []
  | x :: xs => insertDesc x (sortDesc xs)

/-- `RAGService.search(query, topK)`. -/
def search (log : ℚ → ℚ) (chunks : List DocumentChunk) (query : String)
    (topK : Nat) : List DocumentChunk :=
  if chunks.length = 0 then []
  else
    let queryTerms := tokenize (jsToLower query)
    ((sortDesc (scoredChunks chunks log queryTerms)).take topK).map (fun z => z.chunk)

/-- The claim's reading of the score (C6): the TF-IDF sum multiplied by
1.5 once per matching (query term, header) pair, then by 1.1 for image,
table and code presence, in that order. -/
def headerMatchCount (queryTerms headers : List String) : Nat :=
  (headers.map (fun h =>
    (queryTerms.filter (fun t => jsIncludes (jsToLower h) t)).length)).sum

def claimRelevanceScore (allChunks : List DocumentChunk) (log : ℚ → ℚ)
    (chunk : DocumentChunk) (queryTerms : List String) : ℚ :=
  let chunkTerms := tokenize (jsToLower chunk.content)
  let base := termFreqScore allChunks log chunkTerms queryTerms
  base * (3 / 2) ^ headerMatchCount queryTerms chunk.metadata.headers *
    (if chunk.metadata.containsImage then 11 / 10 else 1) *
    (if chunk.metadata.containsTable then 11 / 10 else 1) *
    (if chunk.metadata.containsCode then 11 / 10 else 1)

end RAGService

/-! ## JSON values and JavaScript semantics helpers

The generative backends return free-form text; the services locate a JSON
fragment in it and run it through `JSON.parse`.  `JSON.parse` is a runtime
primitive, modelled as a parameter `jsonParse : String → Option Json`
(`none` = parse exception); the downstream field coercions are embedded
exactly. -/

/-- Parsed JSON values (the possible results of `JSON.parse`). -/
inductive Json where
  | null
  | bool (b : Bool)
  | num (q : ℚ)
  | str (s : String)
  | arr (items : List Json)
  | obj (fields : List (String × Json))
  deriving Repr

/-- JavaScript truthiness of a JSON value. -/
def truthy : Json → Bool
  | .null => false
  | .bool b => b
  | .num q => !(q == 0)
  | .str s => !(s == "")
  | .arr _ => true
  | .obj _ => true

/-- Object property lookup; `JSON.parse` keeps the last duplicate key. -/
def lookupLast (fields : List (String × Json)) (key : String) : Option Json :=
  match fields with
  | [] => none
  | (k, v) :: rest =>
    match lookupLast rest key with
    | some v' => some v'
    | none => if k = key then some v else none

/-- Property access `v[key]` on a non-null value: a field of an object,
`undefined` (= `none`) otherwise.  Access on `null` throws in JavaScript
and is handled explicitly at each use site. -/
def jsGetU : Json → String → Option Json
  | .obj fields, key => lookupLast fields key
  | _, _ => none

/-- Property access that can throw: the outer `none` models the TypeError
raised by accessing a property of `null`. -/
def jsGetT : Json → String → Option (Option Json)
  | .null, _ => none
  | j, key => some (jsGetU j key)

/-- `v.length` as a number, when it exists: string length, array length,
or a numeric `length` field of an object; `none` for `undefined`. -/
def jsLengthNum : Json → Option ℚ
  | .str s => some (s.length : ℚ)
  | .arr items => some (items.length : ℚ)
  | .obj fields =>
    match lookupLast fields "length" with
    | some (.num q) => some q
    | _ => none
  | _ => none

/-- `(v?.length || 0) > 0`. -/
def jsLenPos (v : Json) : Bool :=
  match jsLengthNum v with
  | some q => decide (0 < q)
  | none => false

/-- `Math.round`. -/
def jsRound (q : ℚ) : ℤ := ⌊q + 1 / 2⌋

/-- JavaScript string coercion of a JSON value as used in template
literals; primitives are faithful, arrays/objects are approximated (no
settled claim inspects the resulting strings). -/
def jsDisplay : Json → String
  | .null => "null"
  | .bool b => if b then "true" else "false"
  | .num q => toString q
  | .str s => s
  | .arr _ => ""
  | .obj _ => ""

/-- JavaScript numeric coercion as used in `(x || 10) * 1.5` for a truthy
non-number `x`, approximated: numbers and booleans are faithful, other
truthy values (whose JS coercion may be NaN) are mapped to 0; no settled
claim reaches those cases. -/
def jsCoerceNum : Json → ℚ
  | .num q => q
  | .bool b => if b then 1 else 0
  | _ => 0

/-- First match of the greedy regexes `/\x7b[\s\S]*\x7d/` and
`/\[[\s\S]*\]/`: the substring from the first opening delimiter to the
last closing delimiter after it, if any. -/
def extractDelimited (openC closeC : Char) (s : String) : Option String :=
  let t := s.data.dropWhile (fun c => !(c = openC))
  let u := t.reverse.dropWhile (fun c => !(c = closeC))
  if t.isEmpty || u.isEmpty then none else some (String.mk u.reverse)

/-! ## Data model: summaries and blueprints (`types/index.ts`) -/

/-- `OutlineSection`: title/level/content with optional subsections.  The
field values come from unvalidated JSON, hence `Json`-typed text
fields. -/
inductive OutlineSection where
  | mk (title : Json) (level : ℚ) (content : Json)
      (subsections : Option (List OutlineSection))
  deriving Repr

structure ContentSummary where
  mainTopics : List Json
  keyPoints : List Json
  suggestedSlideCount : ℚ
  estimatedDuration : ℚ
  complexity : String
  keywords : List Json
  outline : List OutlineSection
  deriving Repr

inductive SlideLength where
  | short
  | medium
  | long
  deriving Repr, DecidableEq

inductive LayoutType where
  | title
  | content
  | twoColumn
  | imageFocus
  | quote
  | comparison
  deriving Repr, DecidableEq

/-- Slide content.  `text` is always an array (checked with
`Array.isArray` before assignment); `images`/`tables`/`code` are stored
verbatim from `item.content?.x || []` and may be any truthy JSON value
under the unvalidated coercion, with `Json.null` standing for the absent
(`undefined`) field of the fallback path. -/
structure SlideContent where
  text : List Json
  images : Json
  tables : Json
  code : Json
  deriving Repr

structure SlideBlueprint where
  slideNumber : ℚ
  title : Json
  layout : LayoutType
  content : SlideContent
  notes : Json
  imagePrompt : Option Json
  estimatedTokens : ℚ
  deriving Repr

structure RAGIndexMetadata where
  totalChunks : Nat
  avgChunkSize : ℤ
  documentLength : Nat
  createdAt : String
  deriving Repr

structure RAGIndex where
  chunks : List DocumentChunk
  metadata : RAGIndexMetadata
  deriving Repr

/-- `RAGService.indexDocument` (the timestamp is an external clock value,
passed as a parameter). -/
def RAGService.indexDocument (chunks : List DocumentChunk) (createdAt : String) : RAGIndex :=
  let totalChunks := chunks.length
  let totalLength : Nat := (chunks.map (fun c => c.content.length)).sum
  let avgChunkSize : ℚ := if totalChunks > 0 then (totalLength : ℚ) / (totalChunks : ℚ) else 0
  { chunks := chunks
    metadata :=
      { totalChunks := totalChunks
        avgChunkSize := jsRound avgChunkSize
        documentLength := totalLength
        createdAt := createdAt } }

/-! ## Summarizer (`SummaryService.ts`) -/

namespace SummaryService

/-- Maximal-whitespace-run count used to model `s.split(/\s+/).length`
(which equals run count + 1; leading/trailing whitespace contributes
empty pieces, as in JavaScript). -/
def wsRuns : List Char → Bool → Nat
  | [], _ => 0
  | c :: t, inRun =>
    if jsWhitespace c then (if inRun then wsRuns t true else 1 + wsRuns t true)
    else wsRuns t false

def jsSplitWsCount (s : String) : Nat :=
  wsRuns s.data false + 1

/-- `fallbackSlideCount`: one slide per 200 words, clamped to [5, 25]. -/
def fallbackSlideCount (ragIndex : RAGIndex) : ℤ :=
  let totalWords := (ragIndex.chunks.map (fun c => jsSplitWsCount c.content)).sum
  max 5 (min 25 ⌈(totalWords : ℚ) / 200⌉)

/-- Character class of the fallback keyword regex `[a-z가-힣]`. -/
def kwChar (c : Char) : Bool :=
  ('a' ≤ c && c ≤ 'z') || (0xAC00 ≤ c.toNat && c.toNat ≤ 0xD7A3)

/-- Keyword candidates: maximal runs of `[a-z가-힣]` of length ≥ 4 in the
lowercased text (approximating the `\b` anchors of
`/\b[a-z가-힣]{4,}\b/g`, whose ASCII-word-boundary corner cases no
settled claim depends on). -/
def keywordMatches (s : String) : List String :=
  ((s.data.splitOnP (fun c => !kwChar c)).filter
    (fun r => decide (4 ≤ r.length))).map String.mk

def freqOf (ws : List String) (w : String) : Nat :=
  (ws.filter (fun x => x == w)).length

/-- Stable descending insertion by frequency, modelling the stable
JavaScript `sort((a, b) => b[1] - a[1])` over the Map entries. -/
def insertFreqDesc (x : String × Nat) : List (String × Nat) → List (String × Nat)
  | [] => [x]
  | y :: ys => if y.2 ≤ x.2 then x :: y :: ys else y :: insertFreqDesc x ys

def sortFreqDesc : List (String × Nat) → List (String × Nat)
  | [] => []
  | x :: xs => insertFreqDesc x (sortFreqDesc xs)

/-- The fallback keyword list: the 10 most frequent 4+-character words;
Map insertion order is first-occurrence order, so ties keep that
order. -/
def fallbackKeywords (ragIndex : RAGIndex) : List String :=
  let allContent := String.intercalate " " (ragIndex.chunks.map (fun c => c.content))
  let words := keywordMatches (jsToLower allContent)
  let entries := words.eraseDups.map (fun w => (w, freqOf words w))
  ((sortFreqDesc entries).take 10).map (fun e => e.1)

/-- `generateFallbackSummary`. -/
def generateFallbackSummary (ragIndex : RAGIndex) : ContentSummary :=
  let allHeaders := ragIndex.chunks.flatMap (fun c => c.metadata.headers)
  let uniqueHeaders := allHeaders.eraseDups
  let slideCount := fallbackSlideCount ragIndex
  { mainTopics := (uniqueHeaders.take 5).map Json.str
    keyPoints := (uniqueHeaders.take 7).map Json.str
    suggestedSlideCount := (slideCount : ℚ)
    estimatedDuration := ((⌈(slideCount : ℚ) * (3 / 2)⌉ : ℤ) : ℚ)
    complexity := "intermediate"
    keywords := (fallbackKeywords ragIndex).map Json.str
    outline := (uniqueHeaders.take 10).mapIdx (fun index title =>
      OutlineSection.mk (Json.str title) 1
        (Json.str ("Section " ++ toString (index + 1))) none) }

/-- Key presence, for last-duplicate-wins scanning. -/
def hasKey (fields : List (String × Json)) (key : String) : Bool :=
  fields.any (fun p => p.1 == key)

mutual

/-- `validateOutline`: drop sections without a truthy title or a numeric
level, recursively validating subsections.  A `null` entry makes the
whole validation throw (`none`), since the source accesses
`section.title` on it. -/
def validateOutline : List Json → Option (List OutlineSection)
  | [] => some []
  | s :: rest => do
    let cur ← validateSection s
    let others ← validateOutline rest
    pure (match cur with | some sec => sec :: others | none => others)

/-- One section: `none` = throw, `some none` = filtered out. -/
def validateSection : Json → Option (Option OutlineSection)
  | Json.null => none
  | Json.obj fields =>
    if truthy ((lookupLast fields "title").getD Json.null) &&
        (match lookupLast fields "level" with
         | some (Json.num _) => true
         | _ => false) then do
      let subs ← validateSubsections fields
      pure (some (OutlineSection.mk
        ((lookupLast fields "title").getD Json.null)
        (match lookupLast fields "level" with
         | some (Json.num q) => q
         | _ => 0)
        (match lookupLast fields "content" with
         | some v => if truthy v then v else Json.str ""
         | none => Json.str "")
        subs))
    else
      pure none
  | _ => pure none

/-- `Array.isArray(section.subsections) ? validateOutline(...) : undefined`,
scanning structurally for the last `subsections` field. -/
def validateSubsections : List (String × Json) → Option (Option (List OutlineSection))
  | [] => some none
  | (key, value) :: rest =>
    if key = "subsections" && !hasKey rest "subsections" then
      match value with
      | Json.arr xs => (validateOutline xs).map some
      | _ => some none
    else
      validateSubsections rest

end

/-- `(parsed.suggestedSlideCount || 10)`. -/
def sscOr10 (v : Option Json) : ℚ :=
  match v with
  | some u => if truthy u then jsCoerceNum u else 10
  | none => 10

/-- The `try` block of `parseAIResponse`: `none` at exactly the points
where the source can throw (no JSON object found, `JSON.parse` failure,
property access on a `null` parse result, outline-validation throw). -/
def tryParseSummary (jsonParse : String → Option Json) (responseText : String)
    (ragIndex : RAGIndex) : Option ContentSummary := do
  let sub ← extractDelimited '\x7b' '\x7d' responseText
  let parsed ← jsonParse sub
  let mainTopicsV ← jsGetT parsed "mainTopics"
  let keyPointsV ← jsGetT parsed "keyPoints"
  let sscV ← jsGetT parsed "suggestedSlideCount"
  let durV ← jsGetT parsed "estimatedDuration"
  let complexityV ← jsGetT parsed "complexity"
  let keywordsV ← jsGetT parsed "keywords"
  let outlineV ← jsGetT parsed "outline"
  let outline ← match outlineV with
    | some (Json.arr xs) => validateOutline xs
    | _ => pure []
  pure
    { mainTopics := match mainTopicsV with | some (Json.arr xs) => xs | _ => []
      keyPoints := match keyPointsV with | some (Json.arr xs) => xs | _ => []
      suggestedSlideCount := match sscV with
        | some (Json.num q) => q
        | _ => ((fallbackSlideCount ragIndex : ℤ) : ℚ)
      estimatedDuration := match durV with
        | some (Json.num q) => q
        | _ => ((⌈sscOr10 sscV * (3 / 2)⌉ : ℤ) : ℚ)
      complexity := match complexityV with
        | some (Json.str s) =>
          if s = "beginner" || s = "intermediate" || s = "advanced" then s
          else "intermediate"
        | _ => "intermediate"
      keywords := match keywordsV with | some (Json.arr xs) => xs | _ => []
      outline := outline }

/-- `parseAIResponse`: the `try` block, with the `catch` producing the
deterministic fallback summary. -/
def parseAIResponse (jsonParse : String → Option Json) (responseText : String)
    (ragIndex : RAGIndex) : ContentSummary :=
  match tryParseSummary jsonParse responseText ragIndex with
  | some summary => summary
  | none => generateFallbackSummary ragIndex

/-- `estimateSlideCount(summary, length)`.  (JavaScript float literals
`0.7`/`1.3` are modelled as the exact rationals they denote in the
source text.) -/
def estimateSlideCount (summary : ContentSummary) (length : SlideLength) : ℚ :=
  let baseCount := summary.suggestedSlideCount
  match length with
  | .short => max 5 (min 10 ((⌊baseCount * (7 / 10)⌋ : ℤ) : ℚ))
  | .medium => max 10 (min 15 baseCount)
  | .long => max 15 (min 25 ((⌊baseCount * (13 / 10)⌋ : ℤ) : ℚ))

end SummaryService

/-! ## Planner (`PlanService` in `RAGService.ts`) -/

namespace PlanService

/-- `calculateTargetCount(summary, length)`: the same formulas as
`estimateSlideCount`, switching on the configuration string, defaulting
to the base count. -/
def calculateTargetCount (summary : ContentSummary) (length : String) : ℚ :=
  let base := summary.suggestedSlideCount
  if length = "short" then max 5 (min 10 ((⌊base * (7 / 10)⌋ : ℤ) : ℚ))
  else if length = "medium" then max 10 (min 15 base)
  else if length = "long" then max 15 (min 25 ((⌊base * (13 / 10)⌋ : ℤ) : ℚ))
  else base

/-- `validateLayout`: keep a valid layout string, else `content` (also
for undefined or non-string values). -/
def validateLayout : Option Json → LayoutType
  | some (Json.str s) =>
    if s = "title" then .title
    else if s = "content" then .content
    else if s = "two-column" then .twoColumn
    else if s = "image-focus" then .imageFocus
    else if s = "quote" then .quote
    else if s = "comparison" then .comparison
    else .content
  | _ => .content

/-- `item.slideNumber` of an accepted item. -/
def itemSlideNumber (item : Json) : ℚ :=
  match jsGetU item "slideNumber" with
  | some (Json.num q) => q
  | _ => 0

/-- The `filter` over parsed items: keep items with a truthy title and a
numeric slide number; a `null` item makes the filter throw (`none`). -/
def filterItems : List Json → Option (List Json)
  | [] => some []
  | Json.null :: _ => none
  | item :: rest => do
    let others ← filterItems rest
    pure (if truthy ((jsGetU item "title").getD Json.null) &&
        (match jsGetU item "slideNumber" with
         | some (Json.num _) => true
         | _ => false) then item :: others else others)

/-- `item.content?.x` (optional chaining). -/
def contentField (item : Json) (key : String) : Option Json :=
  match jsGetU item "content" with
  | some c => jsGetU c key
  | none => none

/-- Coerce one accepted item into a `SlideBlueprint`.  The `slideNumber`
is taken verbatim from the response — there is no renumbering. -/
def coerceItem (item : Json) : SlideBlueprint :=
  { slideNumber := itemSlideNumber item
    title := (jsGetU item "title").getD Json.null
    layout := validateLayout (jsGetU item "layout")
    content :=
      { text := match contentField item "text" with
          | some (Json.arr xs) => xs
          | _ => []
        images := match contentField item "images" with
          | some v => if truthy v then v else Json.arr []
          | none => Json.arr []
        tables := match contentField item "tables" with
          | some v => if truthy v then v else Json.arr []
          | none => Json.arr []
        code := match contentField item "code" with
          | some v => if truthy v then v else Json.arr []
          | none => Json.arr [] }
    notes := match jsGetU item "notes" with
      | some v => if truthy v then v else Json.str ""
      | none => Json.str ""
    imagePrompt := match jsGetU item "imagePrompt" with
      | some v => if truthy v then some v else none
      | none => none
    estimatedTokens := match jsGetU item "estimatedTokens" with
      | some (Json.num q) => q
      | _ => 200 }

/-- The `try` block of `parseBlueprints`: `none` at exactly the points
where the source can throw (no JSON array found, `JSON.parse` failure,
non-array result, `null` item in the filter). -/
def tryParseBlueprints (jsonParse : String → Option Json) (responseText : String) :
    Option (List SlideBlueprint) := do
  let sub ← extractDelimited '[' ']' responseText
  let parsed ← jsonParse sub
  match parsed with
  | Json.arr items => do
    let kept ← filterItems items
    pure (kept.map coerceItem)
  | _ => none

def fallbackTitleSlide : SlideBlueprint :=
  { slideNumber := 1
    title := Json.str "Presentation Title"
    layout := .title
    content := { text := [Json.str "Subtitle", Json.str "Date"],
                 images := Json.null, tables := Json.null, code := Json.null }
    notes := Json.str "Title slide"
    imagePrompt := none
    estimatedTokens := 100 }

def fallbackContentSlide (i : Nat) : SlideBlueprint :=
  { slideNumber := (i : ℚ)
    title := Json.str ("Section " ++ toString (i - 1))
    layout := .content
    content := { text := [Json.str "Key point 1", Json.str "Key point 2",
                          Json.str "Key point 3"],
                 images := Json.null, tables := Json.null, code := Json.null }
    notes := Json.str ("Content for section " ++ toString (i - 1))
    imagePrompt := none
    estimatedTokens := 200 }

/-- `generateFallbackBlueprints(count)`: a title slide, then content
slides numbered 2..⌊count⌋ (the loop `for (i = 2; i <= count; i++)`,
where `count` may be non-integral). -/
def generateFallbackBlueprints (count : ℚ) : List SlideBlueprint :=
  fallbackTitleSlide ::
    (List.range (⌊count⌋ - 1).toNat).map (fun k => fallbackContentSlide (k + 2))

/-- `parseBlueprints`: the `try` block, with the `catch` producing the
deterministic fallback blueprints. -/
def parseBlueprints (jsonParse : String → Option Json) (responseText : String)
    (targetCount : ℚ) : List SlideBlueprint :=
  match tryParseBlueprints jsonParse responseText with
  | some blueprints => blueprints
  | none => generateFallbackBlueprints targetCount

/-- `suggestLayout`.  (On a `null` first text line the JavaScript
`text[0].length` access would throw; the model yields `false` there,
which is unreachable under the declared `string[]` element type.) -/
def suggestLayout (blueprint : SlideBlueprint) : LayoutType :=
  let textCount := blueprint.content.text.length
  let hasImages := jsLenPos blueprint.content.images
  let hasTables := jsLenPos blueprint.content.tables
  let hasCode := jsLenPos blueprint.content.code
  if hasImages && decide (textCount ≤ 2) then .imageFocus
  else if hasTables || textCount == 2 then .twoColumn
  else if hasCode then .content
  else if textCount == 1 &&
      (match blueprint.content.text.head? with
       | some t =>
         match jsLengthNum t with
         | some q => decide (50 < q)
         | none => false
       | none => false) then .quote
  else .content

def takeChars (n : Nat) (s : String) : String :=
  String.mk (s.data.take n)

/-- `generateImagePrompt`. -/
def generateImagePrompt (blueprint : SlideBlueprint) : String :=
  let title := jsDisplay blueprint.title
  let content := String.intercalate " " (blueprint.content.text.map jsDisplay)
  "A professional, visually appealing illustration for a slide titled \"" ++ title ++
    "\". The image should represent: " ++ takeChars 200 content ++
    ". Style: modern, clean, suitable for business presentations."

/-- The body of the `map` in `optimizeLayout` for the slide at `index` of
a deck of `len` slides, applying the four rules in source order.  (A
`LayoutType` value is never falsy, so the `!blueprint.layout ||` disjunct
of rule 3 is vacuous under the TS type.) -/
def optimizeOne (len index : Nat) (blueprint : SlideBlueprint) : SlideBlueprint :=
  let b1 := if index = 0 then { blueprint with layout := .title } else blueprint
  let b2 := if index = len - 1 then
      { b1 with layout := .content,
                title := if truthy b1.title then b1.title else Json.str "Summary" }
    else b1
  let b3 := if b2.layout = .content then { b2 with layout := suggestLayout b2 } else b2
  if decide (b3.layout = .imageFocus) &&
      (match b3.imagePrompt with | none => true | some v => !truthy v) then
    { b3 with imagePrompt := some (Json.str (generateImagePrompt b3)) }
  else b3

/-- `optimizeLayout(blueprints)`. -/
def optimizeLayout (blueprints : List SlideBlueprint) : List SlideBlueprint :=
  blueprints.mapIdx (fun index blueprint =>
    optimizeOne blueprints.length index blueprint)

end PlanService

/-! ## Concrete inputs used to settle the planner claims -/

/-- A well-formed single blueprint (empty text, no rich content). -/
def c2SingletonBlueprint : SlideBlueprint :=
  { slideNumber := 1
    title := Json.str "Only slide"
    layout := .content
    content := { text := [], images := Json.null, tables := Json.null, code := Json.null }
    notes := Json.str ""
    imagePrompt := none
    estimatedTokens := 200 }

/-- An AI planner response whose single entry carries slide number 5. -/
def c3Response : String :=
  "[\x7b\"slideNumber\": 5, \"title\": \"A\"\x7d]"

/-- What `JSON.parse` returns on `c3Response`. -/
def c3ParsedArr : Json :=
  Json.arr [Json.obj [("slideNumber", Json.num 5), ("title", Json.str "A")]]

/-- `JSON.parse` restricted to the single input it receives in the C3
counterexample; its value there is exactly what `JSON.parse` produces on
that text. -/
def c3JsonStub : String → Option Json :=
  fun s => if s = c3Response then some c3ParsedArr else none

/-- A single accepted planner item (slide number 7, title "B"). -/
def c3WitnessItems : List Json :=
  [Json.obj [("slideNumber", Json.num 7), ("title", Json.str "B")]]

/-- A summary with `suggestedSlideCount = 12` (the C10 scenario). -/
def c10SampleSummary : ContentSummary :=
  { mainTopics := []
    keyPoints := []
    suggestedSlideCount := 12
    estimatedDuration := 18
    complexity := "intermediate"
    keywords := []
    outline := [] }

/-! ## Image synthesizer (`ImageService.ts`) -/

inductive ResolutionType where
  | oneK
  | twoK
  | fourK
  deriving Repr, DecidableEq

inductive ThemeType where
  | academic
  | doraemon
  | minimalist
  | corporate
  | creative
  deriving Repr, DecidableEq

structure ImageGenerationRequest where
  prompt : String
  slideNumber : ℚ
  resolution : ResolutionType
  theme : ThemeType
  style : Option String
  deriving Repr

structure ImageResultMetadata where
  generatedAt : String
  prompt : String
  resolution : ResolutionType
  retryCount : Nat
  deriving Repr, DecidableEq

structure ImageGenerationResult where
  slideNumber : ℚ
  imageData : String
  mimeType : String
  metadata : ImageResultMetadata
  deriving Repr

/-- The provider's `ImageGenerationResponse`; an absent `mimeType` is the
empty string (the source applies `|| 'image/png'`). -/
structure ImageResponse where
  imageData : String
  mimeType : String
  deriving Repr

namespace ImageService

/-- The per-theme style guides of `buildImagePrompt`; the lookup
`themeStyles[theme] || themeStyles.minimalist` is total over the theme
enum. -/
def themeStyle : ThemeType → String
  | .academic =>
    "professional, scholarly, clean design, muted colors, academic illustration style"
  | .doraemon =>
    "cute, colorful, playful, cartoon-style, Doraemon-inspired aesthetics"
  | .minimalist =>
    "minimalist, simple, clean lines, modern, flat design, limited color palette"
  | .corporate =>
    "professional, business-appropriate, polished, corporate design, modern aesthetics"
  | .creative =>
    "creative, artistic, vibrant colors, unique composition, innovative design"

/-- `buildImagePrompt(request)`. -/
def buildImagePrompt (request : ImageGenerationRequest) : String :=
  let themeGuide := themeStyle request.theme
  let customStyle := match request.style with | some s => s | none => ""
  request.prompt ++ "\n\nStyle: " ++ themeGuide ++
    (if customStyle = "" then "" else ", " ++ customStyle) ++
    "\n\nRequirements:\n- High quality, professional illustration\n" ++
    "- Suitable for presentation slides\n- Clear visual hierarchy\n" ++
    "- Avoid text overlays\n- Focus on visual storytelling"

/-- `getImageDimensions`: width with `Math.round(width / (16/9))`. -/
def getImageDimensions (resolution : ResolutionType) : Nat × Nat :=
  match resolution with
  | .oneK => (1280, (jsRound ((1280 : ℚ) / (16 / 9))).toNat)
  | .twoK => (2560, (jsRound ((2560 : ℚ) / (16 / 9))).toNat)
  | .fourK => (3840, (jsRound ((3840 : ℚ) / (16 / 9))).toNat)

/-- The SVG placeholder text of `generatePlaceholder`. -/
def placeholderSvg (width height retryCount : Nat) : String :=
  "\n<svg width=\"" ++ toString width ++ "\" height=\"" ++ toString height ++
    "\" xmlns=\"http://www.w3.org/2000/svg\">\n" ++
    "  <rect width=\"100%\" height=\"100%\" fill=\"#f0f0f0\"/>\n" ++
    "  <text x=\"50%\" y=\"50%\" font-family=\"Arial, sans-serif\" font-size=\"48\"" ++
    " fill=\"#666\" text-anchor=\"middle\">\n    Image Placeholder\n  </text>\n" ++
    "  <text x=\"50%\" y=\"60%\" font-family=\"Arial, sans-serif\" font-size=\"24\"" ++
    " fill=\"#999\" text-anchor=\"middle\">\n    (Generation failed after " ++
    toString retryCount ++ " retries)\n  </text>\n</svg>"

/-- `generatePlaceholder(request, retryCount)`.  The base64 encoding of
the SVG payload (an injective runtime transcoding) is elided:
`imageData` carries the SVG source; the timestamp is an external clock
value passed as a parameter. -/
def generatePlaceholder (now : String) (request : ImageGenerationRequest)
    (retryCount : Nat) : ImageGenerationResult :=
  let dims := getImageDimensions request.resolution
  { slideNumber := request.slideNumber
    imageData := placeholderSvg dims.1 dims.2 retryCount
    mimeType := "image/svg+xml"
    metadata :=
      { generatedAt := now
        prompt := request.prompt
        resolution := request.resolution
        retryCount := retryCount } }

/-- `maxRetries = this.settings.autoRetryCount || 3`: a configured 0 (or
an absent value) is coerced to 3 by the JavaScript `||`. -/
def maxRetriesOf (autoRetryCount : Nat) : Nat :=
  if autoRetryCount = 0 then 3 else autoRetryCount

/-- The success result built in the `try` branch of
`generateWithRetry`. -/
def successResult (now : String) (request : ImageGenerationRequest)
    (retryCount : Nat) (response : ImageResponse) : ImageGenerationResult :=
  { slideNumber := request.slideNumber
    imageData := response.imageData
    mimeType := if response.mimeType = "" then "image/png" else response.mimeType
    metadata :=
      { generatedAt := now
        prompt := buildImagePrompt request
        resolution := request.resolution
        retryCount := retryCount } }

/-- `generateWithRetry(request, retryCount)`.  The provider call is an
oracle from the attempt number to a response (`none` models the call
throwing); on failure below the retry cap the function sleeps (no
observable effect in the model) and recurses with `retryCount + 1`; at
the cap it returns the placeholder instead of propagating the error. -/
def generateWithRetry (backend : Nat → Option ImageResponse) (now : String)
    (autoRetryCount : Nat) (request : ImageGenerationRequest) :
    Nat → ImageGenerationResult
  | retryCount =>
    match backend retryCount with
    | some response => successResult now request retryCount response
    | none =>
      if h : retryCount < maxRetriesOf autoRetryCount then
        generateWithRetry backend now autoRetryCount request (retryCount + 1)
      else
        generatePlaceholder now request retryCount
  termination_by retryCount => maxRetriesOf autoRetryCount + 1 - retryCount
  decreasing_by omega

/-- `generateImage(request)`: the retry loop entered at attempt 0. -/
def generateImage (backend : Nat → Option ImageResponse) (now : String)
    (autoRetryCount : Nat) (request : ImageGenerationRequest) :
    ImageGenerationResult :=
  generateWithRetry backend now autoRetryCount request 0

end ImageService

/-! ## Orchestrator (`Paper2SlidesPlugin.executePipeline`) -/

inductive ProgressStage where
  | rag
  | summary
  | plan
  | generate
  deriving Repr, DecidableEq

structure ProgressUpdate where
  stage : ProgressStage
  progress : Nat
  message : String
  deriving Repr, DecidableEq

/-- The externally observable actions of one pipeline run, in program
order: progress events, the image-generation call, the slide-file write,
and the note embedding. -/
inductive PipelineEffect where
  | progressed (update : ProgressUpdate)
  | imagesGenerated (requestCount : Nat)
  | slidesSaved
  | noteEmbedded
  deriving Repr, DecidableEq

/-- The settings fields `executePipeline` reads. -/
structure OrchestratorSettings where
  showPreviewModal : Bool
  generateImages : Bool
  embedSlidesInNote : Bool
  deriving Repr

structure GenerationStats where
  totalSlides : Nat
  totalImages : Nat
  totalTokens : Nat
  totalRetries : Nat
  executionTime : Nat
  deriving Repr

structure GenerationResult where
  success : Bool
  blueprints : List SlideBlueprint
  images : List ImageGenerationResult
  outputs : List String
  duration : Nat
  stats : GenerationStats
  deriving Repr

/-- Oracles for the awaited collaborator calls of `executePipeline`, one
per await point: the network-bound stages can reject (`Except.error`),
the preview modal resolves to a confirmation flag, and the file write
can fail. -/
structure PipelineDeps where
  parsedDocument : List DocumentChunk
  summaryResult : Except String ContentSummary
  blueprintsResult : Except String (List SlideBlueprint)
  previewConfirmed : Bool
  imageResults : List ImageGenerationResult
  saveOutputs : Except String (List String)
  hasLastFile : Bool

/-- `executePipeline(noteContent, config)`: the stage sequence with its
progress checkpoints, the post-planning cancellation gate, optional
image generation, and file output.  Returns the result (or the raised
error) together with the ordered effect trace. -/
def executePipeline (settings : OrchestratorSettings) (embedInNoteCfg : Option Bool)
    (deps : PipelineDeps) : Except String GenerationResult × List PipelineEffect :=
  let e2 : List PipelineEffect :=
    [.progressed ⟨.rag, 10, "Analyzing document structure..."⟩,
     .progressed ⟨.rag, 25, "RAG index created"⟩,
     .progressed ⟨.summary, 35, "Analyzing content and extracting key points..."⟩]
  match deps.summaryResult with
  | .error err => (.error err, e2)
  | .ok _summary =>
    let e3 := e2 ++
      [.progressed ⟨.summary, 50, "Content summary generated"⟩,
       .progressed ⟨.plan, 60, "Planning slide structure..."⟩]
    match deps.blueprintsResult with
    | .error err => (.error err, e3)
    | .ok blueprints =>
      let e4 := e3 ++
        [.progressed ⟨.plan, 70, toString blueprints.length ++ " slides planned"⟩]
      if settings.showPreviewModal && !deps.previewConfirmed then
        (.error "Generation cancelled by user", e4)
      else
        let imageRequests := blueprints.filter (fun bp =>
          match bp.imagePrompt with | some v => truthy v | none => false)
        let imagesAndTrace :=
          if settings.generateImages then
            let e5a := e4 ++ [.progressed ⟨.generate, 75, "Generating AI images..."⟩]
            let imgPair :=
              if imageRequests.length > 0 then
                (deps.imageResults, e5a ++ [.imagesGenerated imageRequests.length])
              else (([] : List ImageGenerationResult), e5a)
            (imgPair.1, imgPair.2 ++
              [.progressed ⟨.generate, 85, toString imgPair.1.length ++ " images generated"⟩])
          else (([] : List ImageGenerationResult), e4)
        let images := imagesAndTrace.1
        let e6 := imagesAndTrace.2 ++
          [.progressed ⟨.generate, 90, "Creating slide files..."⟩, .slidesSaved]
        match deps.saveOutputs with
        | .error err => (.error err, e6)
        | .ok outputs =>
          let embedInNote := embedInNoteCfg.getD settings.embedSlidesInNote
          let e7 := if embedInNote && deps.hasLastFile then e6 ++ [.noteEmbedded] else e6
          let e8 := e7 ++ [.progressed ⟨.generate, 100, "Generation complete!"⟩]
          (.ok
            { success := true
              blueprints := blueprints
              images := images
              outputs := outputs
              duration := 0
              stats :=
                { totalSlides := blueprints.length
                  totalImages := images.length
                  totalTokens := 0
                  totalRetries := 0
                  executionTime := 0 } }, e8)

/-- Concrete settings for the C9 witness: preview modal enabled. -/
def c9Settings : OrchestratorSettings :=
  { showPreviewModal := true, generateImages := true, embedSlidesInNote := true }

/-- A summary value for the C9 witness oracles. -/
def c9Summary : ContentSummary :=
  { mainTopics := []
    keyPoints := []
    suggestedSlideCount := 10
    estimatedDuration := 15
    complexity := "intermediate"
    keywords := []
    outline := [] }

/-- Concrete oracles for the C9 witness: planning succeeds, the preview
is rejected. -/
def c9Deps : PipelineDeps :=
  { parsedDocument := []
    summaryResult := .ok c9Summary
    blueprintsResult := .ok []
    previewConfirmed := false
    imageResults := []
    saveOutputs := .ok []
    hasLastFile := true }

end SlidesMaster

namespace SlidesMaster

/-! ## C1 -/

/-- C1: the claim states that for step ≤ 0 (`floor(chunkSize·overlapRatio)
≥ chunkSize`) `parse` rejects the configuration or clamps the step to ≥ 1
so that it terminates.  The source does neither: with `chunkSize = 2`,
`overlapRatio = 1` the step is 0 and on the one-line document `"a"` the
chunking loop never terminates. -/
theorem c1_parse_step_zero_never_terminates :
    MarkdownParser.stepOf 2 1 = 0 ∧ ¬ MarkdownParser.ParseTerminates "a" 2 1 := by
  have hstep : MarkdownParser.stepOf 2 1 = 0 := by
    simp [MarkdownParser.stepOf, MarkdownParser.overlapLines]
  refine ⟨hstep, ?_⟩
  rintro ⟨n, hn⟩
  rw [hstep, mul_zero] at hn
  have hlen : (splitNL "a").length = 1 := rfl
  rw [hlen] at hn
  exact absurd hn (by norm_num)

/-! ## Split/join lemmas -/

theorem splitNLCh_of_no_newline {cs : List Char} (h : '\n' ∉ cs) :
    splitNLCh cs = [cs] := by
  induction cs with
  | nil => rfl
  | cons c cs ih =>
    have hc : ¬ (c = '\n') := fun hc => h (by simp [hc])
    have ih' := ih (fun hm => h (List.mem_cons_of_mem _ hm))
    simp [splitNLCh, hc, ih']

theorem splitNLCh_append {x t : List Char} (h : '\n' ∉ x) :
    splitNLCh (x ++ '\n' :: t) = x :: splitNLCh t := by
  induction x with
  | nil => simp [splitNLCh]
  | cons c x ih =>
    have hc : ¬ (c = '\n') := fun hc => h (by simp [hc])
    have ih' := ih (fun hm => h (List.mem_cons_of_mem _ hm))
    simp [splitNLCh, hc, ih']

theorem splitNLCh_joinCh {xss : List (List Char)} (hne : xss ≠ [])
    (h : ∀ xs ∈ xss, '\n' ∉ xs) : splitNLCh (joinCh xss) = xss := by
  induction xss with
  | nil => exact absurd rfl hne
  | cons x xss ih =>
    cases xss with
    | nil => exact splitNLCh_of_no_newline (h x (by simp))
    | cons y rest =>
      have hx : '\n' ∉ x := h x (by simp)
      have ih' := ih (by simp) (fun xs hxs => h xs (List.mem_cons_of_mem _ hxs))
      show splitNLCh (x ++ '\n' :: joinCh (y :: rest)) = x :: y :: rest
      rw [splitNLCh_append hx, ih']

theorem splitNL_joinNL {ls : List String} (hne : ls ≠ [])
    (h : ∀ l ∈ ls, '\n' ∉ l.data) : splitNL (joinNL ls) = ls := by
  have hmk : ∀ l : String, String.mk l.data = l := fun ⟨d⟩ => rfl
  have hne' : ls.map String.data ≠ [] := by simpa using hne
  have h' : ∀ xs ∈ ls.map String.data, '\n' ∉ xs := by
    intro xs hxs
    obtain ⟨l, hl, rfl⟩ := List.mem_map.mp hxs
    exact h l hl
  show (splitNLCh (joinCh (ls.map String.data))).map (fun cs => String.mk cs) = ls
  rw [splitNLCh_joinCh hne' h', List.map_map]
  exact (List.map_congr_left fun l _ => hmk l).trans (List.map_id ls)

/-! ## Chunker lemmas -/

namespace MarkdownParser

theorem chunkSize_pos_of_step {chunkSize : Nat} {r : ℚ}
    (hs : 1 ≤ stepOf chunkSize r) : 1 ≤ chunkSize := by
  by_contra h
  have hc0 : chunkSize = 0 := by omega
  subst hc0
  simp [stepOf, overlapLines] at hs

theorem parseGo_mem {lines : List String} {chunkSize s : Nat} :
    ∀ {fuel i idx c}, c ∈ parseGo lines chunkSize s fuel i idx →
      ∃ j idx', i ≤ j ∧ j < lines.length ∧ c = mkChunk lines chunkSize j idx' := by
  intro fuel
  induction fuel with
  | zero => intro i idx c hc; simp [parseGo] at hc
  | succ fuel ih =>
    intro i idx c hc
    rw [parseGo] at hc
    by_cases hi : i < lines.length
    · rw [if_pos hi] at hc
      by_cases hb : trimEmpty (joinNL ((lines.drop i).take chunkSize)) = true
      · rw [if_pos hb] at hc
        obtain ⟨j, idx', hij, hj, hcj⟩ := ih hc
        exact ⟨j, idx', le_trans (Nat.le_add_right i s) hij, hj, hcj⟩
      · rw [if_neg hb] at hc
        rcases List.mem_cons.mp hc with h1 | h2
        · exact ⟨i, idx, le_refl i, hi, h1⟩
        · obtain ⟨j, idx', hij, hj, hcj⟩ := ih h2
          exact ⟨j, idx', le_trans (Nat.le_add_right i s) hij, hj, hcj⟩
    · rw [if_neg hi] at hc
      simp at hc

theorem mkChunk_startLine (lines : List String) (chunkSize j idx : Nat) :
    (mkChunk lines chunkSize j idx).metadata.startLine = j + 1 := rfl

theorem mkChunk_endLine (lines : List String) (chunkSize j idx : Nat) :
    (mkChunk lines chunkSize j idx).metadata.endLine = min (j + chunkSize) lines.length := rfl

theorem parseGo_pairwise {lines : List String} {chunkSize s : Nat} (hs : 1 ≤ s) :
    ∀ fuel i idx, List.Pairwise (fun a b => a.metadata.startLine < b.metadata.startLine)
      (parseGo lines chunkSize s fuel i idx) := by
  intro fuel
  induction fuel with
  | zero => intro i idx; simp [parseGo]
  | succ fuel ih =>
    intro i idx
    rw [parseGo]
    by_cases hi : i < lines.length
    · rw [if_pos hi]
      by_cases hb : trimEmpty (joinNL ((lines.drop i).take chunkSize)) = true
      · rw [if_pos hb]
        exact ih (i + s) idx
      · rw [if_neg hb]
        refine List.Pairwise.cons ?_ (ih (i + s) (idx + 1))
        intro b hbmem
        obtain ⟨j, idx', hij, _, rfl⟩ := parseGo_mem hbmem
        rw [mkChunk_startLine, mkChunk_startLine]
        omega
    · rw [if_neg hi]
      simp

theorem parseGo_reconstruct {lines : List String} {chunkSize : Nat}
    (hcs : 1 ≤ chunkSize)
    (hnl : ∀ l ∈ lines, '\n' ∉ l.data)
    (hnb : ∀ k : Nat, k * chunkSize < lines.length →
      trimEmpty (joinNL ((lines.drop (k * chunkSize)).take chunkSize)) = false) :
    ∀ fuel k idx, lines.length ≤ k * chunkSize + fuel →
      ((parseGo lines chunkSize chunkSize fuel (k * chunkSize) idx).flatMap
        fun c => splitNL c.content) = lines.drop (k * chunkSize) := by
  intro fuel
  induction fuel with
  | zero =>
    intro k idx hfuel
    rw [parseGo]
    rw [List.drop_eq_nil_of_le (by omega)]
    rfl
  | succ fuel ih =>
    intro k idx hfuel
    rw [parseGo]
    by_cases hi : k * chunkSize < lines.length
    · rw [if_pos hi, hnb k hi]
      simp only [Bool.false_eq_true, if_false, List.flatMap_cons]
      have hwne : (lines.drop (k * chunkSize)).take chunkSize ≠ [] := by
        have hlen : ((lines.drop (k * chunkSize)).take chunkSize).length =
            min chunkSize (lines.length - k * chunkSize) := by
          simp [List.length_take, List.length_drop]
        intro hnil
        rw [hnil] at hlen
        simp at hlen
        omega
      have hwnl : ∀ l ∈ (lines.drop (k * chunkSize)).take chunkSize, '\n' ∉ l.data :=
        fun l hl => hnl l (List.take_subset _ _ (by exact hl) |> List.drop_subset _ _)
      have hsplit : splitNL (mkChunk lines chunkSize (k * chunkSize) idx).content =
          (lines.drop (k * chunkSize)).take chunkSize := by
        show splitNL (joinNL ((lines.drop (k * chunkSize)).take chunkSize)) = _
        exact splitNL_joinNL hwne hwnl
      rw [hsplit]
      have hnext : k * chunkSize + chunkSize = (k + 1) * chunkSize := by ring
      rw [hnext, ih (k + 1) (idx + 1) (by omega)]
      have hdd : lines.drop ((k + 1) * chunkSize) = (lines.drop (k * chunkSize)).drop chunkSize := by
        rw [List.drop_drop]
        congr 1
        ring
      rw [hdd]
      exact List.take_append_drop chunkSize (lines.drop (k * chunkSize))
    · rw [if_neg hi]
      rw [List.drop_eq_nil_of_le (by omega)]
      rfl

end MarkdownParser

/-! ## C4 -/

/-- C4 counterexample: the claim's reconstruction clause fails as stated.
With lines `["a", " ", "b"]`, `chunkSize = 1`, `overlapRatio = 0` the step
is 1, but the all-whitespace middle window is skipped by the chunker, so
the concatenated chunk contents miss the line `" "`. -/
theorem c4_counterexample_blank_window :
    (1 : ℤ) ≤ MarkdownParser.stepOf 1 0 ∧
    ((MarkdownParser.parseLines ["a", " ", "b"] 1 0).flatMap
      fun c => splitNL c.content) ≠ ["a", " ", "b"] := by
  constructor
  · norm_num [MarkdownParser.stepOf, MarkdownParser.overlapLines]
  · have hstep : (MarkdownParser.stepOf 1 0).toNat = 1 := by
      norm_num [MarkdownParser.stepOf, MarkdownParser.overlapLines]
    simp only [MarkdownParser.parseLines, hstep]
    decide

/-- C4 (amended): for step ≥ 1, every emitted chunk's line range lies
within document bounds, chunk start lines are strictly increasing, and —
for `overlapRatio = 0`, newline-free lines, and **no window whose content
trims to empty** in the JavaScript `trim()` sense of `jsWhitespace` (the
source silently skips such windows) — the concatenation of the chunk
contents reconstructs the original line sequence exactly. -/
theorem c4_parse_bounds_increasing_reconstruct
    (lines : List String) (chunkSize : Nat) (r : ℚ)
    (hs : 1 ≤ MarkdownParser.stepOf chunkSize r) :
    (∀ c ∈ MarkdownParser.parseLines lines chunkSize r,
      1 ≤ c.metadata.startLine ∧ c.metadata.startLine ≤ c.metadata.endLine ∧
      c.metadata.endLine ≤ lines.length) ∧
    List.Pairwise (fun a b => a.metadata.startLine < b.metadata.startLine)
      (MarkdownParser.parseLines lines chunkSize r) ∧
    (r = 0 → (∀ l ∈ lines, '\n' ∉ l.data) →
      (∀ k : Nat, k * chunkSize < lines.length →
        trimEmpty (joinNL ((lines.drop (k * chunkSize)).take chunkSize)) = false) →
      ((MarkdownParser.parseLines lines chunkSize r).flatMap
        fun c => splitNL c.content) = lines) := by
  have hcs : 1 ≤ chunkSize := MarkdownParser.chunkSize_pos_of_step hs
  have hsn : 1 ≤ (MarkdownParser.stepOf chunkSize r).toNat := by omega
  refine ⟨?_, ?_, ?_⟩
  · intro c hc
    obtain ⟨j, idx', _, hj, rfl⟩ := MarkdownParser.parseGo_mem hc
    rw [MarkdownParser.mkChunk_startLine, MarkdownParser.mkChunk_endLine]
    omega
  · exact MarkdownParser.parseGo_pairwise hsn lines.length 0 0
  · intro hr hnl hnb
    subst hr
    have hstep : (MarkdownParser.stepOf chunkSize 0).toNat = chunkSize := by
      simp [MarkdownParser.stepOf, MarkdownParser.overlapLines]
    unfold MarkdownParser.parseLines
    rw [hstep]
    have := MarkdownParser.parseGo_reconstruct hcs hnl hnb lines.length 0 0
      (by omega)
    simpa using this

/-- C4 witness: the amended theorem applied at a concrete input: two
non-blank lines, chunk size 1, overlap ratio 0. -/
theorem c4_parse_bounds_increasing_reconstruct_witness :
    ((MarkdownParser.parseLines ["x", "y"] 1 0).flatMap
      fun c => splitNL c.content) = ["x", "y"] := by
  have h := c4_parse_bounds_increasing_reconstruct ["x", "y"] 1 0
    (by norm_num [MarkdownParser.stepOf, MarkdownParser.overlapLines])
  refine h.2.2 rfl (by decide) ?_
  intro k hk
  have hk2 : k < 2 := by simpa using hk
  interval_cases k <;> decide

/-! ## Retrieval lemmas -/

namespace RAGService

theorem mem_insertDesc {x z : ScoredChunk} {l : List ScoredChunk} :
    z ∈ insertDesc x l ↔ z = x ∨ z ∈ l := by
  induction l with
  | nil => simp [insertDesc]
  | cons y ys ih =>
    by_cases h : y.score ≤ x.score
    · simp [insertDesc, h]
    · simp only [insertDesc, if_neg h, List.mem_cons, ih]
      tauto

theorem mem_of_mem_sortDesc {z : ScoredChunk} {l : List ScoredChunk}
    (h : z ∈ sortDesc l) : z ∈ l := by
  induction l with
  | nil => simpa [sortDesc] using h
  | cons x xs ih =>
    rcases mem_insertDesc.mp h with h1 | h2
    · simp [h1]
    · exact List.mem_cons_of_mem _ (ih h2)

theorem insertDesc_sorted {x : ScoredChunk} {l : List ScoredChunk}
    (h : List.Pairwise (fun a b => b.score ≤ a.score) l) :
    List.Pairwise (fun a b => b.score ≤ a.score) (insertDesc x l) := by
  induction l with
  | nil => simp [insertDesc]
  | cons y ys ih =>
    rcases List.pairwise_cons.mp h with ⟨hy, hys⟩
    by_cases hyx : y.score ≤ x.score
    · rw [insertDesc, if_pos hyx]
      refine List.Pairwise.cons ?_ h
      intro b hb
      rcases List.mem_cons.mp hb with rfl | hb'
      · exact hyx
      · exact le_trans (hy b hb') hyx
    · rw [insertDesc, if_neg hyx]
      refine List.Pairwise.cons ?_ (ih hys)
      intro b hb
      rcases mem_insertDesc.mp hb with rfl | hb'
      · exact le_of_lt (lt_of_not_le hyx)
      · exact hy b hb'

theorem sortDesc_sorted (l : List ScoredChunk) :
    List.Pairwise (fun a b => b.score ≤ a.score) (sortDesc l) := by
  induction l with
  | nil => simp [sortDesc]
  | cons x xs ih => exact insertDesc_sorted ih

theorem filter_insertDesc (x : ScoredChunk) (l : List ScoredChunk) (q : ℚ) :
    (insertDesc x l).filter (fun z => decide (z.score = q)) =
    ((x :: l).filter (fun z => decide (z.score = q))) := by
  induction l with
  | nil => rfl
  | cons y ys ih =>
    by_cases hxy : y.score ≤ x.score
    · rw [insertDesc, if_pos hxy]
    · rw [insertDesc, if_neg hxy]
      by_cases hy : y.score = q
      · have hx : ¬ x.score = q := by
          intro hx
          exact hxy (le_of_eq (hy.trans hx.symm))
        simp [List.filter_cons, hy, hx, ih]
      · by_cases hx : x.score = q
        · simp [List.filter_cons, hy, hx, ih]
        · simp [List.filter_cons, hy, hx, ih]

theorem sortDesc_filter (l : List ScoredChunk) (q : ℚ) :
    (sortDesc l).filter (fun z => decide (z.score = q)) =
    l.filter (fun z => decide (z.score = q)) := by
  induction l with
  | nil => rfl
  | cons x xs ih =>
    rw [sortDesc, filter_insertDesc]
    simp only [List.filter_cons, ih]

theorem scoredChunks_score {allChunks : List DocumentChunk} {log : ℚ → ℚ}
    {queryTerms : List String} {z : ScoredChunk}
    (h : z ∈ scoredChunks allChunks log queryTerms) :
    z.score = calculateRelevanceScore allChunks log z.chunk queryTerms := by
  obtain ⟨c, _, rfl⟩ := List.mem_map.mp h
  rfl

end RAGService

/-! ## C5 -/

/-- C5: `search` returns at most `topK` chunks, ordered by non-increasing
relevance score; ties keep the original chunk order (the underlying
stable descending sort preserves, for every score value, the original
relative order of the equally scored entries); and two calls with
identical arguments return the identical result sequence. -/
theorem c5_search_topk_sorted_stable_deterministic
    (log : ℚ → ℚ) (chunks : List DocumentChunk) (query : String) (topK : Nat) :
    (RAGService.search log chunks query topK).length ≤ topK ∧
    List.Pairwise (fun a b =>
      RAGService.calculateRelevanceScore chunks log b (RAGService.tokenize (jsToLower query)) ≤
      RAGService.calculateRelevanceScore chunks log a (RAGService.tokenize (jsToLower query)))
      (RAGService.search log chunks query topK) ∧
    (∀ q : ℚ,
      (RAGService.sortDesc
        (RAGService.scoredChunks chunks log (RAGService.tokenize (jsToLower query)))).filter
          (fun z => decide (z.score = q)) =
      (RAGService.scoredChunks chunks log (RAGService.tokenize (jsToLower query))).filter
        (fun z => decide (z.score = q))) ∧
    RAGService.search log chunks query topK = RAGService.search log chunks query topK := by
  refine ⟨?_, ?_, fun q => RAGService.sortDesc_filter _ q, rfl⟩
  · by_cases h : chunks.length = 0
    · simp [RAGService.search, h]
    · have hsearch : RAGService.search log chunks query topK =
          ((RAGService.sortDesc (RAGService.scoredChunks chunks log
            (RAGService.tokenize (jsToLower query)))).take topK).map (fun z => z.chunk) := by
        unfold RAGService.search
        rw [if_neg h]
      rw [hsearch, List.length_map, List.length_take]
      exact min_le_left _ _
  · by_cases h : chunks.length = 0
    · simp [RAGService.search, h]
    · have hsearch : RAGService.search log chunks query topK =
          ((RAGService.sortDesc (RAGService.scoredChunks chunks log
            (RAGService.tokenize (jsToLower query)))).take topK).map (fun z => z.chunk) := by
        unfold RAGService.search
        rw [if_neg h]
      rw [hsearch]
      set terms := RAGService.tokenize (jsToLower query) with hterms
      have hsorted := RAGService.sortDesc_sorted (RAGService.scoredChunks chunks log terms)
      have htake : List.Pairwise (fun a b => b.score ≤ a.score)
          ((RAGService.sortDesc (RAGService.scoredChunks chunks log terms)).take topK) :=
        List.Pairwise.sublist (List.take_sublist topK _) hsorted
      rw [List.pairwise_map]
      refine htake.imp_of_mem ?_
      intro a b ha hb hab
      have ha' := RAGService.scoredChunks_score (RAGService.mem_of_mem_sortDesc
        (List.mem_of_mem_take ha))
      have hb' := RAGService.scoredChunks_score (RAGService.mem_of_mem_sortDesc
        (List.mem_of_mem_take hb))
      rw [← ha', ← hb']
      exact hab

/-! ## C6 -/

theorem fold_term_boost (hl : String) (s : ℚ) (terms : List String) :
    terms.foldl (fun a term => if jsIncludes (jsToLower hl) term then a * (3 / 2) else a) s =
    s * (3 / 2) ^ (terms.filter (fun t => jsIncludes (jsToLower hl) t)).length := by
  induction terms generalizing s with
  | nil => simp
  | cons t ts ih =>
    by_cases h : jsIncludes (jsToLower hl) t
    · simp only [List.foldl_cons, if_pos h, List.filter_cons, h, if_true, List.length_cons]
      rw [ih]
      ring
    · simp only [List.foldl_cons, if_neg h, List.filter_cons, h]
      simp only [Bool.false_eq_true, if_false]
      exact ih s

theorem fold_header_boost (terms : List String) (base : ℚ) (headers : List String) :
    headers.foldl (fun score header =>
      terms.foldl (fun a term =>
        if jsIncludes (jsToLower header) term then a * (3 / 2) else a) score) base =
    base * (3 / 2) ^ RAGService.headerMatchCount terms headers := by
  induction headers generalizing base with
  | nil => simp [RAGService.headerMatchCount]
  | cons h hs ih =>
    simp only [List.foldl_cons]
    rw [fold_term_boost, ih]
    simp only [RAGService.headerMatchCount, List.map_cons, List.sum_cons]
    rw [pow_add]
    ring

/-- C6: the relevance score of a chunk equals its TF-IDF sum multiplied
by 1.5 once per matching (query term, chunk header) pair, compounding,
then by 1.1 for image, table and code presence, in that order. -/
theorem c6_relevance_score_eq_claim (allChunks : List DocumentChunk) (log : ℚ → ℚ)
    (chunk : DocumentChunk) (queryTerms : List String) :
    RAGService.calculateRelevanceScore allChunks log chunk queryTerms =
    RAGService.claimRelevanceScore allChunks log chunk queryTerms := by
  simp only [RAGService.calculateRelevanceScore, RAGService.claimRelevanceScore]
  rw [fold_header_boost]
  by_cases h1 : chunk.metadata.containsImage <;>
    by_cases h2 : chunk.metadata.containsTable <;>
      by_cases h3 : chunk.metadata.containsCode <;>
        simp [h1, h2, h3] <;> ring

/-! ## Planner layout lemmas -/

theorem suggestLayout_ne_title (blueprint : SlideBlueprint) :
    PlanService.suggestLayout blueprint ≠ LayoutType.title := by
  simp only [PlanService.suggestLayout]
  repeat' split
  all_goals decide

theorem optimizeOne_zero_layout {len : Nat} (hlen : ¬ (0 = len - 1))
    (b : SlideBlueprint) :
    (PlanService.optimizeOne len 0 b).layout = LayoutType.title := by
  simp [PlanService.optimizeOne, hlen]

theorem optimizeOne_last_layout {len index : Nat} (h0 : ¬ (index = 0))
    (hl : index = len - 1) (b : SlideBlueprint) :
    (PlanService.optimizeOne len index b).layout =
      PlanService.suggestLayout
        { b with layout := .content,
                 title := if truthy b.title then b.title else Json.str "Summary" } := by
  simp only [PlanService.optimizeOne, if_neg h0, if_pos hl]
  rw [apply_ite (fun x : SlideBlueprint => x.layout)]
  simp

/-! ## C2 -/

/-- C2 counterexample: on a singleton list the claim fails — position 0
is also the last position, so the forced `title` layout is immediately
overwritten with `content` and then re-assigned by the suggestion
heuristic, which never yields `title`. -/
theorem c2_counterexample_singleton :
    ((PlanService.optimizeLayout [c2SingletonBlueprint]).map (fun b => b.layout) =
      [LayoutType.content]) ∧ LayoutType.content ≠ LayoutType.title := by
  constructor
  · decide
  · decide

/-- C2 (amended): for blueprint lists of length > 1, `optimizeLayout`
forces the first slide's layout to `title`, and the last slide's layout
is never `title` (it is forced to `content` and then possibly re-assigned
by the suggestion heuristic, which cannot produce `title`).  For a
singleton list the single slide is both first and last, and the last-slide
rule wins, so its layout need not be `title`. -/
theorem c2_optimize_first_title_last_not_title
    (blueprints : List SlideBlueprint) (h : 1 < blueprints.length) :
    ((PlanService.optimizeLayout blueprints).head?.map (fun b => b.layout) =
      some LayoutType.title) ∧
    ((PlanService.optimizeLayout blueprints).getLast?.map (fun b => b.layout) ≠
      some LayoutType.title) := by
  obtain ⟨b0, rest, rfl⟩ : ∃ b0 rest, blueprints = b0 :: rest := by
    cases blueprints with
    | nil => simp at h
    | cons x xs => exact ⟨x, xs, rfl⟩
  have hlen : ¬ (0 = (b0 :: rest).length - 1) := by
    simp only [List.length_cons] at h ⊢
    omega
  have h0 : ¬ ((b0 :: rest).length - 1 = 0) := fun hz => hlen hz.symm
  have hr : 1 ≤ rest.length := by
    simp only [List.length_cons] at h
    omega
  constructor
  · rw [PlanService.optimizeLayout, List.head?_mapIdx]
    simp only [List.length_cons, List.head?_cons, Option.map_some']
    rw [optimizeOne_zero_layout (show ¬ (0 = rest.length + 1 - 1) by omega)]
  · rw [PlanService.optimizeLayout, List.getLast?_mapIdx]
    have hne : (b0 :: rest) ≠ [] := by simp
    rw [List.getLast?_eq_getLast _ hne]
    simp only [Option.map_some']
    intro hco
    have hco' := Option.some_injective _ hco
    rw [optimizeOne_last_layout h0 rfl] at hco'
    exact suggestLayout_ne_title _ hco'

/-- C2 witness: the amended theorem applied to a concrete two-slide
list. -/
theorem c2_optimize_first_title_last_not_title_witness :
    ((PlanService.optimizeLayout [c2SingletonBlueprint, c2SingletonBlueprint]).head?.map
      (fun b => b.layout) = some LayoutType.title) ∧
    ((PlanService.optimizeLayout [c2SingletonBlueprint, c2SingletonBlueprint]).getLast?.map
      (fun b => b.layout) ≠ some LayoutType.title) :=
  c2_optimize_first_title_last_not_title
    [c2SingletonBlueprint, c2SingletonBlueprint] (by decide)

/-! ## C3 -/

/-- C3 counterexample: an accepted AI response whose single entry carries
slide number 5 is passed through verbatim — `parseBlueprints` performs no
renumbering, so the blueprint at index 0 has slide number 5, not 1. -/
theorem c3_counterexample_nonsequential :
    ((PlanService.parseBlueprints c3JsonStub c3Response 5).map
      (fun b => b.slideNumber) = [5]) ∧ (5 : ℚ) ≠ 1 := by
  constructor
  · decide
  · decide

/-- C3 (amended): blueprint lists produced by the fallback path have
slide numbers forming a contiguous 1..N sequence matching array position;
lists parsed from an accepted AI response keep the response's
`slideNumber` values unchanged (no renumbering), so for those the
invariant holds only when the response already provides it. -/
theorem c3_fallback_contiguous_parse_preserves
    (count : ℚ) (items kept : List Json)
    (h : PlanService.filterItems items = some kept) :
    ((PlanService.generateFallbackBlueprints count).map (fun b => b.slideNumber) =
      (List.range (PlanService.generateFallbackBlueprints count).length).map
        (fun i : ℕ => ((i : ℚ) + 1))) ∧
    ((kept.map PlanService.coerceItem).map (fun b => b.slideNumber) =
      kept.map PlanService.itemSlideNumber) := by
  constructor
  · simp only [PlanService.generateFallbackBlueprints, List.map_cons, List.length_cons,
      List.length_map, List.length_range]
    rw [List.range_succ_eq_map, List.map_cons, List.map_map, List.map_map]
    congr 1
    · simp [PlanService.fallbackTitleSlide]
    · apply List.map_congr_left
      intro k _
      simp only [Function.comp, PlanService.fallbackContentSlide]
      push_cast
      ring
  · rw [List.map_map]
    apply List.map_congr_left
    intro item _
    rfl

/-- C3 witness: the amended theorem applied at target count 3 and a
concrete accepted item list. -/
theorem c3_fallback_contiguous_parse_preserves_witness :
    ((PlanService.generateFallbackBlueprints 3).map (fun b => b.slideNumber) =
      (List.range (PlanService.generateFallbackBlueprints 3).length).map
        (fun i : ℕ => ((i : ℚ) + 1))) ∧
    ((c3WitnessItems.map PlanService.coerceItem).map (fun b => b.slideNumber) =
      c3WitnessItems.map PlanService.itemSlideNumber) :=
  c3_fallback_contiguous_parse_preserves 3 c3WitnessItems c3WitnessItems rfl

/-! ## C8 -/

/-- C8: the Summarizer's and the Planner's response parsing never throw
to the caller: for every response text and JSON-parsing behaviour the
result is either the successfully parsed value or exactly the
deterministic fallback — every throwing point inside the `try` blocks
(no JSON found, parse failure, property access on `null`, outline
validation) lands in the `catch` that returns the fallback. -/
theorem c8_parse_recovers_with_fallback
    (jsonParse : String → Option Json) (summaryText planText : String)
    (ragIndex : RAGIndex) (targetCount : ℚ) :
    (SummaryService.parseAIResponse jsonParse summaryText ragIndex =
        SummaryService.generateFallbackSummary ragIndex ∨
      ∃ s, SummaryService.tryParseSummary jsonParse summaryText ragIndex = some s ∧
        SummaryService.parseAIResponse jsonParse summaryText ragIndex = s) ∧
    (PlanService.parseBlueprints jsonParse planText targetCount =
        PlanService.generateFallbackBlueprints targetCount ∨
      ∃ bs, PlanService.tryParseBlueprints jsonParse planText = some bs ∧
        PlanService.parseBlueprints jsonParse planText targetCount = bs) := by
  constructor
  · cases h : SummaryService.tryParseSummary jsonParse summaryText ragIndex with
    | none =>
      left
      simp [SummaryService.parseAIResponse, h]
    | some s =>
      right
      exact ⟨s, rfl, by simp [SummaryService.parseAIResponse, h]⟩
  · cases h : PlanService.tryParseBlueprints jsonParse planText with
    | none =>
      left
      simp [PlanService.parseBlueprints, h]
    | some bs =>
      right
      exact ⟨bs, rfl, by simp [PlanService.parseBlueprints, h]⟩

/-! ## C10 -/

/-- C10: both the Summarizer's `estimateSlideCount` and the Planner's
`calculateTargetCount` return max(5, min(10, ⌊base·0.7⌋)) for short,
max(10, min(15, base)) for medium, and max(15, min(25, ⌊base·1.3⌋)) for
long, with base the summary's suggested slide count; base 12 with bucket
short yields 8. -/
theorem c10_slide_count_formulas (summary : ContentSummary) :
    (SummaryService.estimateSlideCount summary .short =
        max 5 (min 10 ((⌊summary.suggestedSlideCount * (7 / 10)⌋ : ℤ) : ℚ)) ∧
      SummaryService.estimateSlideCount summary .medium =
        max 10 (min 15 summary.suggestedSlideCount) ∧
      SummaryService.estimateSlideCount summary .long =
        max 15 (min 25 ((⌊summary.suggestedSlideCount * (13 / 10)⌋ : ℤ) : ℚ))) ∧
    (PlanService.calculateTargetCount summary "short" =
        max 5 (min 10 ((⌊summary.suggestedSlideCount * (7 / 10)⌋ : ℤ) : ℚ)) ∧
      PlanService.calculateTargetCount summary "medium" =
        max 10 (min 15 summary.suggestedSlideCount) ∧
      PlanService.calculateTargetCount summary "long" =
        max 15 (min 25 ((⌊summary.suggestedSlideCount * (13 / 10)⌋ : ℤ) : ℚ))) ∧
    (summary.suggestedSlideCount = 12 →
      SummaryService.estimateSlideCount summary .short = 8 ∧
      PlanService.calculateTargetCount summary "short" = 8) := by
  refine ⟨⟨rfl, rfl, rfl⟩, ⟨?_, ?_, ?_⟩, ?_⟩
  · simp [PlanService.calculateTargetCount]
  · simp [PlanService.calculateTargetCount]
  · simp [PlanService.calculateTargetCount]
  · intro h12
    have hfloor : (⌊summary.suggestedSlideCount * (7 / 10)⌋ : ℤ) = 8 := by
      rw [h12, Int.floor_eq_iff]
      norm_num
    constructor
    · simp only [SummaryService.estimateSlideCount, hfloor]
      norm_num [min_def, max_def]
    · simp only [PlanService.calculateTargetCount, hfloor, if_pos rfl]
      norm_num [min_def, max_def]

/-- C10 witness: the scenario instantiated at a concrete summary with
suggested slide count 12. -/
theorem c10_slide_count_formulas_witness :
    SummaryService.estimateSlideCount c10SampleSummary .short = 8 ∧
    PlanService.calculateTargetCount c10SampleSummary "short" = 8 :=
  (c10_slide_count_formulas c10SampleSummary).2.2 rfl

/-! ## C7 -/

/-- The retry loop of `generateWithRetry` entered at any attempt number
`r ≤ maxRetries` either returns the success result of the first
succeeding attempt, or — when every attempt from `r` through
`maxRetries` fails — the placeholder built at attempt `maxRetries`. -/
theorem generateWithRetry_spec (backend : Nat → Option ImageResponse) (now : String)
    (autoRetryCount : Nat) (request : ImageGenerationRequest) :
    ∀ n r, ImageService.maxRetriesOf autoRetryCount - r = n →
      r ≤ ImageService.maxRetriesOf autoRetryCount →
      (∃ k resp, r ≤ k ∧ k ≤ ImageService.maxRetriesOf autoRetryCount ∧
        backend k = some resp ∧
        ImageService.generateWithRetry backend now autoRetryCount request r =
          ImageService.successResult now request k resp) ∨
      ((∀ k, r ≤ k → k ≤ ImageService.maxRetriesOf autoRetryCount → backend k = none) ∧
        ImageService.generateWithRetry backend now autoRetryCount request r =
          ImageService.generatePlaceholder now request
            (ImageService.maxRetriesOf autoRetryCount)) := by
  intro n
  induction n with
  | zero =>
    intro r hn hr
    have hreq : r = ImageService.maxRetriesOf autoRetryCount := by omega
    subst hreq
    rw [ImageService.generateWithRetry]
    cases hb : backend (ImageService.maxRetriesOf autoRetryCount) with
    | some resp =>
      exact Or.inl ⟨_, resp, le_refl _, le_refl _, hb, rfl⟩
    | none =>
      rw [dif_neg (by omega)]
      refine Or.inr ⟨?_, rfl⟩
      intro k hk1 hk2
      have hk : k = ImageService.maxRetriesOf autoRetryCount := le_antisymm hk2 hk1
      rw [hk]
      exact hb
  | succ n ih =>
    intro r hn hr
    rw [ImageService.generateWithRetry]
    cases hb : backend r with
    | some resp =>
      exact Or.inl ⟨r, resp, le_refl r, hr, hb, rfl⟩
    | none =>
      rw [dif_pos (by omega)]
      rcases ih (r + 1) (by omega) (by omega) with
        ⟨k, resp, hk1, hk2, hbk, heq⟩ | ⟨hall, heq⟩
      · exact Or.inl ⟨k, resp, by omega, hk2, hbk, heq⟩
      · refine Or.inr ⟨?_, heq⟩
        intro k hk1 hk2
        by_cases hkr : k = r
        · rw [hkr]
          exact hb
        · exact hall k (by omega) hk2

/-- C7: `generateWithRetry` (entered at attempt 0, as `generateImage`
does) always resolves to a result: for every backend behaviour it
returns either the success result of the first succeeding attempt
`k ≤ maxRetries`, or — when all attempts up to the cap fail — the
placeholder, whose `metadata.retryCount` equals `maxRetries` (the
effective maximum retry count `autoRetryCount || 3`) and whose
`mimeType` is the placeholder format `image/svg+xml`; with the default
configuration of 3 retries, exhaustion yields `retryCount = 3`. -/
theorem c7_generate_with_retry_resolves
    (backend : Nat → Option ImageResponse) (now : String)
    (autoRetryCount : Nat) (request : ImageGenerationRequest) :
    ((∃ k resp, k ≤ ImageService.maxRetriesOf autoRetryCount ∧
        backend k = some resp ∧
        ImageService.generateImage backend now autoRetryCount request =
          ImageService.successResult now request k resp) ∨
      ((∀ k, k ≤ ImageService.maxRetriesOf autoRetryCount → backend k = none) ∧
        ImageService.generateImage backend now autoRetryCount request =
          ImageService.generatePlaceholder now request
            (ImageService.maxRetriesOf autoRetryCount))) ∧
    (∀ req rc, (ImageService.generatePlaceholder now req rc).metadata.retryCount = rc ∧
      (ImageService.generatePlaceholder now req rc).mimeType = "image/svg+xml") ∧
    ImageService.maxRetriesOf 3 = 3 := by
  refine ⟨?_, fun req rc => ⟨rfl, rfl⟩, rfl⟩
  rcases generateWithRetry_spec backend now autoRetryCount request
      (ImageService.maxRetriesOf autoRetryCount) 0 (by omega) (by omega) with
    ⟨k, resp, _, hk2, hbk, heq⟩ | ⟨hall, heq⟩
  · exact Or.inl ⟨k, resp, hk2, hbk, heq⟩
  · exact Or.inr ⟨fun k hk => hall k (by omega) hk, heq⟩

/-! ## C9 -/

/-- C9: when the external caller rejects the plan at the post-planning
cancellation gate (preview modal enabled, not confirmed) after summary
and planning succeeded, `executePipeline` raises the cancellation error
and performs no further work: its effect trace contains no
image-generation call, no slide-file write, and no note embedding. -/
theorem c9_cancellation_no_images_no_output
    (settings : OrchestratorSettings) (embedInNoteCfg : Option Bool)
    (deps : PipelineDeps) (s : ContentSummary) (bs : List SlideBlueprint)
    (hshow : settings.showPreviewModal = true)
    (hrej : deps.previewConfirmed = false)
    (hsum : deps.summaryResult = .ok s)
    (hplan : deps.blueprintsResult = .ok bs) :
    (executePipeline settings embedInNoteCfg deps).1 =
      .error "Generation cancelled by user" ∧
    ∀ e ∈ (executePipeline settings embedInNoteCfg deps).2,
      (∀ c, e ≠ .imagesGenerated c) ∧ e ≠ .slidesSaved ∧ e ≠ .noteEmbedded := by
  have hpipe : executePipeline settings embedInNoteCfg deps =
      (.error "Generation cancelled by user",
        [.progressed ⟨.rag, 10, "Analyzing document structure..."⟩,
         .progressed ⟨.rag, 25, "RAG index created"⟩,
         .progressed ⟨.summary, 35, "Analyzing content and extracting key points..."⟩,
         .progressed ⟨.summary, 50, "Content summary generated"⟩,
         .progressed ⟨.plan, 60, "Planning slide structure..."⟩,
         .progressed ⟨.plan, 70, toString bs.length ++ " slides planned"⟩]) := by
    unfold executePipeline
    rw [hsum, hplan, hshow, hrej]
    rfl
  rw [hpipe]
  refine ⟨rfl, ?_⟩
  intro e he
  simp only [List.mem_cons, List.not_mem_nil, or_false] at he
  rcases he with rfl | rfl | rfl | rfl | rfl | rfl <;>
    exact ⟨fun c => by simp, by simp, by simp⟩

/-- C9 witness: the theorem applied to concrete settings and stage
oracles with the preview rejected. -/
theorem c9_cancellation_no_images_no_output_witness :
    (executePipeline c9Settings none c9Deps).1 =
      .error "Generation cancelled by user" ∧
    ∀ e ∈ (executePipeline c9Settings none c9Deps).2,
      (∀ c, e ≠ .imagesGenerated c) ∧ e ≠ .slidesSaved ∧ e ≠ .noteEmbedded :=
  c9_cancellation_no_images_no_output c9Settings none c9Deps c9Summary []
    rfl rfl rfl rfl

end SlidesMaster
